/-
Verification of the mem_edit Linux backends (mem_edit/__init__.py,
mem_edit/linux.py, mem_edit/linux_vm.py) against their design document.

The Python source is shallowly embedded: pure string processing is
translated to executable Lean functions over List Char / String; Python
exceptions are modelled with an explicit error type and Except; the
operating system (signals, ptrace, waitpid, procfs, the target process's
memory) is modelled by explicit oracle records or function-valued states
that each operation threads through.
-/
import Mathlib

namespace MemEdit

/-- Python exceptions and OS-level failures observable from the code. -/
inductive PyErr where
  | indexError
  | valueError
  | typeError
  | processLookupError
  | childProcessError
  | permissionError
  | fileNotFoundError
  | memEditError (msg : String)
  | osError (errno : Nat)
deriving DecidableEq, Repr

/- ------------------------------------------------------------------
   String utilities mirroring the Python primitives used by the source.
   All of them work on List Char so that every proof and witness reduces
   by computation.
   ------------------------------------------------------------------ -/

/-- listHasPre a b : the list a is an initial segment of b
    (used to model re.match of a metacharacter-free pattern, which
    succeeds exactly when the pattern is a prefix of the string). -/
def listHasPre : List Char → List Char → Bool
  | [], _ => true
  | _ :: _, [] => false
  | a :: as, b :: bs => a == b && listHasPre as bs

/-- listHasSub n l : n occurs as a contiguous substring of l
    (Python: n in l). -/
def listHasSub (needle : List Char) : List Char → Bool
  | [] => needle.isEmpty
  | c :: cs => listHasPre needle (c :: cs) || listHasSub needle cs

/-- Python: needle in line (substring containment on strings). -/
def strHasSub (needle line : String) : Bool :=
  listHasSub needle.toList line.toList

/-- Python: c in s for a single character c. -/
def strHasChar (s : String) (c : Char) : Bool :=
  s.toList.any (fun d => d == c)

/-- Helper for pySplit: accumulates the current word (reversed). -/
def pySplitAux : List Char → List Char → List String
  | [], acc => if acc.isEmpty then [] else [String.mk acc.reverse]
  | c :: cs, acc =>
    if c.isWhitespace then
      if acc.isEmpty then pySplitAux cs [] else String.mk acc.reverse :: pySplitAux cs []
    else
      pySplitAux cs (c :: acc)

/-- Python str.split() with no argument: split on runs of whitespace,
    discarding empty fields. -/
def pySplit (s : String) : List String :=
  pySplitAux s.toList []

/-- Python " ".join(l). -/
def joinSpace : List String → String
  | [] => ""
  | [s] => s
  | s :: rest => s ++ " " ++ joinSpace rest

/-- Helper for splitOnChar: current field accumulated reversed. -/
def splitOnCharAux (sep : Char) : List Char → List Char → List String
  | [], acc => [String.mk acc.reverse]
  | c :: cs, acc =>
    if c == sep then String.mk acc.reverse :: splitOnCharAux sep cs []
    else splitOnCharAux sep cs (c :: acc)

/-- Python s.split(sep) for a one-character separator sep: keeps empty
    fields, always returns at least one field. -/
def splitOnChar (sep : Char) (s : String) : List String :=
  splitOnCharAux sep s.toList []

/-- Characters of s before the first NUL byte:
    Python s.split(CHR0)[0] where CHR0 is the zero character. -/
def takeUntilNul : List Char → List Char
  | [] => []
  | c :: cs => if c == Char.ofNat 0 then [] else c :: takeUntilNul cs

/-- First null-delimited token of a command line. -/
def firstNullTok (s : String) : String :=
  String.mk (takeUntilNul s.toList)

/-- Python os.path.basename for plain paths: the part after the last
    slash (basename("a/b") = "b", basename("abc") = "abc"). -/
def pyBasename (s : String) : String :=
  (splitOnChar '/' s).getLastD s

/-- Value of one hexadecimal digit. -/
def hexDigit? (c : Char) : Option Nat :=
  if '0' ≤ c ∧ c ≤ '9' then some (c.toNat - '0'.toNat)
  else if 'a' ≤ c ∧ c ≤ 'f' then some (c.toNat - 'a'.toNat + 10)
  else if 'A' ≤ c ∧ c ≤ 'F' then some (c.toNat - 'A'.toNat + 10)
  else none

/-- Helper for parseHex?. -/
def parseHexAux : List Char → Nat → Option Nat
  | [], acc => some acc
  | c :: cs, acc =>
    match hexDigit? c with
    | some d => parseHexAux cs (acc * 16 + d)
    | none => none

/-- Python int(s, 16) restricted to the bare hexadecimal digit strings
    that appear in /proc/pid/maps address fields; any other string is a
    ValueError. -/
def parseHex? (s : String) : Option Nat :=
  if s.toList.isEmpty then none else parseHexAux s.toList 0

/- ------------------------------------------------------------------
   Backend selection (mem_edit/__init__.py, lines 25-36).

   The module body runs exactly once, at first import; its decision is
   the pure function below of the platform name, the effective uid and
   the two leading components of the kernel release.
   ------------------------------------------------------------------ -/

/-- The three concrete Process strategies the package can import. -/
inductive Backend where
  | windows
  | linuxVm
  | linuxPtrace
deriving DecidableEq, Repr

/-- mem_edit/__init__.py lines 25-36: choose the Process implementation
    from platform.system(), os.geteuid() and the kernel release. -/
def selectBackend (system : String) (euid : Nat) (kmajor kminor : Nat) :
    Except String Backend :=
  if system = "Windows" then .ok .windows
  else if system = "Linux" then
    if euid = 0 ∧ (kmajor > 3 ∨ (kmajor = 3 ∧ kminor ≥ 2)) then .ok .linuxVm
    else .ok .linuxPtrace
  else .error "Only Linux and Windows are currently supported."

/-- True when an Except value is an error. -/
def exceptIsError {ε α : Type} : Except ε α → Bool
  | .error _ => true
  | .ok _ => false

/- ------------------------------------------------------------------
   get_path (linux.py lines 86-91, linux_vm.py lines 74-79).

   The code opens the literal string '/proc/{}/cmdline' without ever
   substituting the pid, so on a procfs — whose cmdline files live only
   at /proc/<decimal pid>/cmdline — the open always raises
   FileNotFoundError, which the except clause converts to ''.
   The filesystem is modelled as a partial map from path to content;
   a missing path is FileNotFoundError.
   ------------------------------------------------------------------ -/

/-- The un-formatted path literal the source opens (braces included). -/
def cmdlineTemplatePath : String := "/proc/\x7b\x7d/cmdline"

/-- linux.py lines 86-91 / linux_vm.py lines 74-79 (identical bodies):
    open('/proc/\x7b\x7d/cmdline'), return the first null-delimited token,
    and turn FileNotFoundError into the empty string. -/
def get_path (fs : String → Option String) : String :=
  match fs cmdlineTemplatePath with
  | none => ""
  | some content => firstNullTok content

/-- Recognizes the paths at which procfs exposes a cmdline file:
    "/proc/" ++ (nonempty decimal digits) ++ "/cmdline". -/
def isPidCmdlinePath (p : String) : Bool :=
  let l := p.toList
  listHasPre ("/proc/".toList) l &&
    (let rest := l.drop 6
     let n := rest.length
     decide (8 ≤ n) && (rest.drop (n - 8) == "/cmdline".toList) &&
       (let mid := rest.take (n - 8)
        !mid.isEmpty && mid.all Char.isDigit))

/- ------------------------------------------------------------------
   list_mapped_regions (linux.py lines 121-153, linux_vm.py 109-127).

   Python's re and fnmatch engines are not re-implemented; the pattern
   tests the source performs are abstracted into an oracle record.  The
   maps pseudo-file is the list of its lines.
   ------------------------------------------------------------------ -/

/-- Oracle for the pattern primitives the source calls:
    reMatch pat s models (re.match(pat, s) is not None) — a match
    anchored at the start of s; reEscape models re.escape;
    fnmatchF name pat models fnmatch.fnmatch(name, pat). -/
structure Matchers where
  reMatch : String → String → Bool
  reEscape : String → String
  fnmatchF : String → String → Bool

/-- linux.py lines 130-134: whole = line.split(); pad with one '' when
    fewer than 6 fields; re-join embedded-whitespace paths into field 5
    when there are 7 or more fields. -/
def procMapsFields (line : String) : List String :=
  let w := pySplit line
  let w := if w.length < 6 then w ++ [""] else w
  if 7 ≤ w.length then w.set 5 (joinSpace (w.drop 5)) else w

/-- Parse the "start-stop" bounds field:
    start, stop = (int(bound, 16) for bound in bounds.split(DASH)).
    A field without exactly one dash or with non-hex digits is a
    ValueError, as in Python. -/
def parseBounds (bounds : String) : Except PyErr (Nat × Nat) :=
  match splitOnChar '-' bounds with
  | [a, b] =>
    match parseHex? a, parseHex? b with
    | some start, some stop => .ok (start, stop)
    | _, _ => .error .valueError
  | _ => .error .valueError

/-- linux.py lines 135-137: if include_paths, keep the line (ok some)
    only when some pattern matches the path field, raw or escaped;
    ok none is a continue; whole[5] on a too-short field list is an
    IndexError. -/
def includeFilter (m : Matchers) (include_paths : List String)
    (whole : List String) : Except PyErr (Option Unit) :=
  if include_paths.isEmpty then .ok (some ()) else
    match whole.get? 5 with
    | none => .error .indexError
    | some path =>
      if (include_paths.any fun x => m.reMatch x path) ||
         (include_paths.any fun x => m.reMatch (m.reEscape x) path)
      then .ok (some ()) else .ok none

/-- linux.py lines 139-141: if self.blacklist, drop the line (ok none)
    when any blacklist glob matches the path field. -/
def blacklistFilter (m : Matchers) (blacklist : List String)
    (whole : List String) : Except PyErr (Option Unit) :=
  if blacklist.isEmpty then .ok (some ()) else
    match whole.get? 5 with
    | none => .error .indexError
    | some path =>
      if blacklist.any fun x => m.fnmatchF path x then .ok none
      else .ok (some ())

/-- linux.py lines 143-152: bounds, privileges = whole[0:2] (ValueError
    when fewer than two fields), the two permission checks, and the
    bounds parse and emit. -/
def permAndParse (writeable_only : Bool) (whole : List String) :
    Except PyErr (Option (Nat × Nat)) :=
  match whole.get? 0, whole.get? 1 with
  | some bounds, some privileges =>
    if ¬ strHasChar privileges 'r' then .ok none
    else if writeable_only ∧ ¬ strHasChar privileges 'w' then .ok none
    else
      match parseBounds bounds with
      | .ok r => .ok (some r)
      | .error e => .error e
  | _, _ => .error .valueError

/-- linux.py lines 124-152, body of the per-line loop of
    Process.list_mapped_regions.  Result: ok none when the line is
    skipped (continue), ok (some (start, stop)) when a region is
    emitted, error e when the Python code would raise. -/
def processLineLinux (m : Matchers) (include_paths blacklist : List String)
    (writeable_only : Bool) (line : String) : Except PyErr (Option (Nat × Nat)) :=
  if strHasSub "/dev/dri/" line then .ok none
  else if strHasSub "Proton" line then .ok none
  else
    match includeFilter m include_paths (procMapsFields line) with
    | .error e => .error e
    | .ok none => .ok none
    | .ok (some _) =>
      match blacklistFilter m blacklist (procMapsFields line) with
      | .error e => .error e
      | .ok none => .ok none
      | .ok (some _) => permAndParse writeable_only (procMapsFields line)

/-- linux.py lines 121-153: Process.list_mapped_regions over the lines
    of /proc/pid/maps. -/
def listMappedRegionsLinux (m : Matchers) (include_paths blacklist : List String)
    (writeable_only : Bool) : List String → Except PyErr (List (Nat × Nat))
  | [] => .ok []
  | l :: ls =>
    match processLineLinux m include_paths blacklist writeable_only l with
    | .error e => .error e
    | .ok none => listMappedRegionsLinux m include_paths blacklist writeable_only ls
    | .ok (some r) =>
      match listMappedRegionsLinux m include_paths blacklist writeable_only ls with
      | .error e => .error e
      | .ok rs => .ok (r :: rs)

/-- linux_vm.py lines 112-126, body of the per-line loop: the built-in
    substring exclusions, then bounds, privileges = line.split()[0:2],
    then the permission checks and the bounds parse.  Note there is no
    include_paths or blacklist logic in this strategy. -/
def processLineVm (writeable_only : Bool) (line : String) :
    Except PyErr (Option (Nat × Nat)) :=
  if strHasSub "/dev/dri/" line then .ok none
  else if strHasSub "Proton" line then .ok none
  else permAndParse writeable_only (pySplit line)

/-- linux_vm.py lines 109-127: Process.list_mapped_regions.  The
    include_paths parameter is accepted (with default []) but never
    read by the body. -/
def listMappedRegionsVm (writeable_only : Bool) (_include_paths : List String) :
    List String → Except PyErr (List (Nat × Nat))
  | [] => .ok []
  | l :: ls =>
    match processLineVm writeable_only l with
    | .error e => .error e
    | .ok none => listMappedRegionsVm writeable_only _include_paths ls
    | .ok (some r) =>
      match listMappedRegionsVm writeable_only _include_paths ls with
      | .error e => .error e
      | .ok rs => .ok (r :: rs)

/- ------------------------------------------------------------------
   The PtraceAndProcMem class state (linux.py lines 53-63).

   blacklist is a class attribute: instances never assign it, so
   self.blacklist always resolves to the single Process.blacklist list,
   and the static set_blacklist replaces that class attribute.
   ------------------------------------------------------------------ -/

/-- The mutable class-level state of linux.py's Process class. -/
structure PtraceClassState where
  blacklist : List String
deriving DecidableEq, Repr

/-- An instance of linux.py's Process: its only instance attribute is
    pid (None after close). -/
structure PtraceHandle where
  pid : Option Nat
deriving DecidableEq, Repr

/-- linux.py lines 61-63: Process.set_blacklist(bl) rebinds the class
    attribute, whichever handle (or the class itself) it is called
    through. -/
def set_blacklist (bl : List String) (_cls : PtraceClassState) : PtraceClassState :=
  { blacklist := bl }

/-- Python attribute lookup for self.blacklist: no instance ever sets
    a blacklist attribute, so the lookup falls through to the class. -/
def handleBlacklist (cls : PtraceClassState) (_h : PtraceHandle) : List String :=
  cls.blacklist

/-- linux.py list_mapped_regions as invoked on a handle: the blacklist
    it filters with is the shared class attribute. -/
def listMappedRegionsMethod (cls : PtraceClassState) (m : Matchers)
    (h : PtraceHandle) (writeable_only : Bool) (include_paths : List String)
    (lines : List String) : Except PyErr (List (Nat × Nat)) :=
  listMappedRegionsLinux m include_paths (handleBlacklist cls h) writeable_only lines

/- ------------------------------------------------------------------
   close (linux.py lines 65-73, linux_vm.py lines 65-66).

   The OS calls close performs — os.kill, os.waitpid and the ptrace()
   wrapper (which raises MemEditError when the syscall returns -1 with
   a nonzero errno) — are modelled by an oracle record, so the control
   flow of close can be followed exactly: only the waitpid step is
   wrapped in try/except ChildProcessError.
   ------------------------------------------------------------------ -/

/-- The two signals close sends. -/
inductive Sig where
  | sigstop
  | sigcont
deriving DecidableEq, Repr

/-- Oracle for the three OS operations used by linux.py close. -/
structure TraceSys where
  kill : Nat → Sig → Except PyErr Unit
  waitpid : Nat → Except PyErr Nat
  ptraceDetach : Nat → Except PyErr Unit

/-- linux.py lines 65-73: Process.close.  Takes the handle's pid field
    (None after a previous close — os.kill(None, ...) is a TypeError)
    and returns the new pid field on success.  Only waitpid's
    ChildProcessError is tolerated; self.pid = None runs last, only
    when every step before it succeeded. -/
def ptrace_close (sys : TraceSys) (pid? : Option Nat) : Except PyErr (Option Nat) :=
  match pid? with
  | none => .error .typeError
  | some pid =>
    match sys.kill pid .sigstop with
    | .error e => .error e
    | .ok _ =>
      match (match sys.waitpid pid with
             | .error .childProcessError => .ok ()
             | .error e => .error e
             | .ok _ => .ok () : Except PyErr Unit) with
      | .error e => .error e
      | .ok _ =>
        match sys.ptraceDetach pid with
        | .error e => .error e
        | .ok _ =>
          match sys.kill pid .sigcont with
          | .error e => .error e
          | .ok _ => .ok none

/-- linux_vm.py lines 65-66: Process.close only assigns self.pid = None;
    it performs no OS call and cannot raise. -/
def vm_close (_pid? : Option Nat) : Option Nat :=
  none

/-- The OS as seen by close when the target process has fully exited:
    signalling it fails with ESRCH (Python ProcessLookupError), it is
    not a waitable child (ChildProcessError), and PTRACE_DETACH returns
    -1 with errno ESRCH, which the ptrace() wrapper turns into
    MemEditError. -/
def sysExited : TraceSys where
  kill := fun _ _ => .error .processLookupError
  waitpid := fun _ => .error .childProcessError
  ptraceDetach := fun _ => .error (.memEditError "ptrace(17, pid, 0, 0) failed with error 3: No such process")

/-- The OS as seen by close when the target is alive and traced and
    every step succeeds. -/
def sysLive : TraceSys where
  kill := fun _ _ => .ok ()
  waitpid := fun p => .ok p
  ptraceDetach := fun _ => .ok ()

/- ------------------------------------------------------------------
   Raw memory I/O (linux.py lines 75-84, linux_vm.py lines 21-57, 68-72).

   The target's address space is a partial map from address to byte;
   an unmapped address is none.  The two copy mechanisms behave
   differently at a mapping boundary and are modelled separately:

   - The single-segment process_vm_readv / process_vm_writev syscalls
     transfer the consecutive mapped bytes starting at the given
     address, return how many bytes they transferred (a short positive
     count at a boundary), and return -1 with errno only when nothing
     at all can be transferred.

   - Python-level file I/O on /proc/pid/mem is buffered: after a short
     raw read, CPython's buffered readinto retries at the next offset,
     and procfs never reports end-of-file — the retry at the first
     unmapped offset fails with EIO — so the open/seek/readinto
     sequence either fills the whole buffer or raises OSError(EIO);
     the buffered write path likewise raises unless the whole range
     can be written.

   (The addresses the claims range over lie in readable-and-writable
   mapped regions, which is what "mapped" stands for here.)
   ------------------------------------------------------------------ -/

/-- The target process's memory: byte at each mapped address. -/
def TargetMem := Nat → Option Nat

/-- Number of consecutive mapped bytes available at base, up to n. -/
def availFrom (mem : TargetMem) (base : Nat) : Nat → Nat
  | 0 => 0
  | n + 1 =>
    match mem base with
    | none => 0
    | some _ => 1 + availFrom mem (base + 1) n

/-- Copy k bytes starting at base from the target memory into the local
    buffer buf; the rest of buf is left unchanged (exactly what a short
    readinto / short process_vm_readv leaves behind). -/
def copyIn (mem : TargetMem) : Nat → List Nat → Nat → List Nat
  | _, buf, 0 => buf
  | _, [], _ + 1 => []
  | base, _ :: rest, k + 1 => (mem base).getD 0 :: copyIn mem (base + 1) rest k

/-- Overwrite the target memory with buf at [base, base + len).  Only
    used under the guard that the whole range is mapped. -/
def writeMem (mem : TargetMem) (base : Nat) (buf : List Nat) : TargetMem :=
  fun a =>
    if base ≤ a then
      match buf.get? (a - base) with
      | some b => some b
      | none => mem a
    else mem a

/-- errno EIO, returned by /proc/pid/mem on an inaccessible offset. -/
def EIO : Nat := 5

/-- errno EFAULT, returned by process_vm_readv/writev when no byte of
    the remote range can be transferred. -/
def EFAULT : Nat := 14

/-- The buffered readinto on /proc/pid/mem at offset base into a buffer
    of buf.length bytes — what mem.readinto(read_buffer) performs after
    mem.seek(base_address).  CPython's buffered layer retries after a
    short raw read, and procfs never reports end-of-file, so the retry
    at the first unmapped offset fails: the call returns the full count
    when the whole range is mapped and raises OSError(EIO) otherwise. -/
def procMemReadinto (mem : TargetMem) (base : Nat) (buf : List Nat) :
    Except PyErr (List Nat × Nat) :=
  if availFrom mem base buf.length = buf.length
  then .ok (copyIn mem base buf (availFrom mem base buf.length),
            availFrom mem base buf.length)
  else .error (.osError EIO)

/-- The buffered write on /proc/pid/mem at offset base: succeeds
    (updating memory) when the whole range is mapped, otherwise raises
    an OSError(EIO) out of the write/flush.  This is what
    mem.write(write_buffer) performs after mem.seek(base_address). -/
def procMemWrite (mem : TargetMem) (base : Nat) (buf : List Nat) :
    Except PyErr TargetMem :=
  if availFrom mem base buf.length = buf.length then .ok (writeMem mem base buf)
  else .error (.osError EIO)

/-- linux.py lines 80-84: Process.read_memory opens /proc/pid/mem,
    seeks to base_address, calls readinto and returns the buffer.  The
    count readinto returns is discarded, exactly as in the source. -/
def read_memory_ptrace (mem : TargetMem) (base : Nat) (buf : List Nat) :
    Except PyErr (List Nat) :=
  match procMemReadinto mem base buf with
  | .error e => .error e
  | .ok (buf2, _count) => .ok buf2

/-- linux.py lines 75-78: Process.write_memory opens /proc/pid/mem,
    seeks to base_address and writes the buffer; the updated target
    memory is the result. -/
def write_memory_ptrace (mem : TargetMem) (base : Nat) (buf : List Nat) :
    Except PyErr TargetMem :=
  procMemWrite mem base buf

/-- linux_vm.py lines 31-36 and 45-50: the process_vm_readv syscall
    through its ctypes binding with errcheck = _error_checker: a -1
    return (nothing transferable from a nonempty remote range) becomes
    OSError(errno); otherwise the call returns the transferred byte
    count and fills that many bytes of the local buffer. -/
def process_vm_readv_call (mem : TargetMem) (base : Nat) (buf : List Nat) :
    Except PyErr (Nat × List Nat) :=
  if availFrom mem base buf.length = 0 ∧ buf.length ≠ 0 then .error (.osError EFAULT)
  else .ok (availFrom mem base buf.length,
            copyIn mem base buf (availFrom mem base buf.length))

/-- linux_vm.py lines 45-50: read_process_memory builds the two iovecs,
    calls process_vm_readv and returns the buffer; res_size is bound
    but never checked against the requested size. -/
def read_process_memory (mem : TargetMem) (base : Nat) (buf : List Nat) :
    Except PyErr (List Nat) :=
  match process_vm_readv_call mem base buf with
  | .error e => .error e
  | .ok (_res_size, buf2) => .ok buf2

/-- linux_vm.py lines 38-43 and 52-57: the process_vm_writev syscall
    with errcheck: writes the consecutive writable span; -1 (nothing
    transferable) becomes OSError(errno); a short positive count is
    returned unchecked. -/
def process_vm_writev_call (mem : TargetMem) (base : Nat) (buf : List Nat) :
    Except PyErr (Nat × TargetMem) :=
  if availFrom mem base buf.length = 0 ∧ buf.length ≠ 0 then .error (.osError EFAULT)
  else .ok (availFrom mem base buf.length,
            writeMem mem base (buf.take (availFrom mem base buf.length)))

/-- linux_vm.py lines 68-69: Process.write_memory calls
    write_process_memory and discards its res_size result. -/
def write_memory_vm (mem : TargetMem) (base : Nat) (buf : List Nat) :
    Except PyErr TargetMem :=
  match process_vm_writev_call mem base buf with
  | .error e => .error e
  | .ok (_res_size, mem2) => .ok mem2

/- ------------------------------------------------------------------
   Process discovery (linux.py lines 103-119, linux_vm.py 91-107;
   the two bodies are identical).
   ------------------------------------------------------------------ -/

/-- Outcome of opening and reading /proc/pid/cmdline for one pid. -/
inductive CmdRes where
  | content (s : String)
  | fnf
  | permDenied
deriving DecidableEq, Repr

/-- linux.py lines 103-119: Process.get_pid_by_name.  Iterates the
    discovered pids in order; only FileNotFoundError is caught by the
    except clause (a PermissionError propagates); the first pid whose
    command line's first null-delimited token has basename equal to
    target_name is returned; None when the loop finishes.  (The
    source's 'path is not None' conjunct is vacuous: path is always a
    string.) -/
def get_pid_by_name : List Nat → (Nat → CmdRes) → String → Except PyErr (Option Nat)
  | [], _, _ => .ok none
  | p :: ps, cmdline, target_name =>
    match cmdline p with
    | .fnf => get_pid_by_name ps cmdline target_name
    | .permDenied => .error .permissionError
    | .content c =>
      let path := firstNullTok c
      let name := pyBasename path
      if name = target_name then .ok (some p)
      else get_pid_by_name ps cmdline target_name

/-- The behaviour §4.4 of the spec describes: the first pid, in
    discovery order, whose readable command line's first token has
    basename target_name (unreadable command lines skipped). -/
def firstMatchSpec : List Nat → (Nat → CmdRes) → String → Option Nat
  | [], _, _ => none
  | p :: ps, cmdline, target_name =>
    match cmdline p with
    | .content c =>
      if pyBasename (firstNullTok c) = target_name then some p
      else firstMatchSpec ps cmdline target_name
    | _ => firstMatchSpec ps cmdline target_name

/- ------------------------------------------------------------------
   Concrete fixtures used by witnesses and counterexamples.
   ------------------------------------------------------------------ -/

instance {ε α : Type} [DecidableEq ε] [DecidableEq α] : DecidableEq (Except ε α) :=
  fun x y =>
    match x, y with
    | .error a, .error b =>
      if h : a = b then .isTrue (congrArg Except.error h)
      else .isFalse (fun hc => h (Except.error.inj hc))
    | .ok a, .ok b =>
      if h : a = b then .isTrue (congrArg Except.ok h)
      else .isFalse (fun hc => h (Except.ok.inj hc))
    | .error _, .ok _ => .isFalse (fun hc => Except.noConfusion hc)
    | .ok _, .error _ => .isFalse (fun hc => Except.noConfusion hc)

/-- Pattern oracle for patterns that contain no regex metacharacters:
    re.match(pat, s) then succeeds exactly when pat is a prefix of s,
    re.escape(pat) is pat itself, and fnmatch on a glob without
    wildcards is string equality. -/
def mLit : Matchers where
  reMatch := fun pat s => listHasPre pat.toList s.toList
  reEscape := fun pat => pat
  fnmatchF := fun name pat => name = pat

/-- A well-formed /proc/pid/maps line with a readable+writable mapping
    backed by /bin/true. -/
def sampleLine : String := "00400000-00401000 rw-p 00000000 08:01 123 /bin/true"

/-- A target memory with bytes 0 mapped at addresses 0..7. -/
def mem0 : TargetMem := fun a => if a < 8 then some 0 else none

/-- A target memory mapped (byte 7) only at addresses 0 and 1: a
    4-byte transfer at 0 is short, moving just 2 bytes. -/
def mem1 : TargetMem := fun a => if a < 2 then some 7 else none

/-- A /proc where reading any cmdline raises PermissionError. -/
def cmdlinePerm : Nat → CmdRes := fun _ => .permDenied

/-- A /proc where pid 3's cmdline is unreadable-because-gone and pid
    5's command line starts with /usr/bin/x. -/
def cmdlineSample : Nat → CmdRes := fun p =>
  if p = 3 then .fnf else .content "/usr/bin/x\x00--flag"

/- ------------------------------------------------------------------
   Helper lemmas about the maps pipeline.
   ------------------------------------------------------------------ -/

lemma permAndParse_emit {wo : Bool} {whole : List String} {r : Nat × Nat}
    (h : permAndParse wo whole = .ok (some r)) :
    ∃ priv, whole.get? 1 = some priv ∧ strHasChar priv 'r' = true ∧
      (wo = true → strHasChar priv 'w' = true) := by
  unfold permAndParse at h
  rcases h0 : whole.get? 0 with _ | bounds <;>
    rcases h1 : whole.get? 1 with _ | priv <;>
      rw [h0, h1] at h <;> dsimp only at h
  · exact absurd h (by simp)
  · exact absurd h (by simp)
  · exact absurd h (by simp)
  · by_cases hr : strHasChar priv 'r' = true
    · rw [if_neg (fun hc => hc hr)] at h
      by_cases hw : wo = true ∧ ¬ strHasChar priv 'w' = true
      · rw [if_pos hw] at h
        exact absurd h (by simp)
      · refine ⟨priv, rfl, hr, ?_⟩
        intro hwo
        by_contra hnw
        exact hw ⟨hwo, hnw⟩
    · rw [if_pos hr] at h
      exact absurd h (by simp)

lemma includeFilter_pass {m : Matchers} {ip : List String} {whole : List String}
    {u : Unit} (h : includeFilter m ip whole = .ok (some u)) (hip : ip ≠ []) :
    ∃ path, whole.get? 5 = some path ∧
      ((ip.any fun x => m.reMatch x path) ||
       (ip.any fun x => m.reMatch (m.reEscape x) path)) = true := by
  unfold includeFilter at h
  rw [if_neg (by simpa using hip)] at h
  rcases h5 : whole.get? 5 with _ | path <;> rw [h5] at h <;> dsimp only at h
  · exact absurd h (by simp)
  · by_cases hm : ((ip.any fun x => m.reMatch x path) ||
       (ip.any fun x => m.reMatch (m.reEscape x) path)) = true
    · exact ⟨path, rfl, hm⟩
    · rw [if_neg hm] at h
      exact absurd h (by simp)

lemma processLineLinux_emit {m : Matchers} {ip bl : List String} {wo : Bool}
    {line : String} {r : Nat × Nat}
    (h : processLineLinux m ip bl wo line = .ok (some r)) :
    permAndParse wo (procMapsFields line) = .ok (some r) ∧
      ∃ u : Unit, includeFilter m ip (procMapsFields line) = .ok (some u) := by
  unfold processLineLinux at h
  by_cases hd : strHasSub "/dev/dri/" line = true
  · rw [if_pos hd] at h; exact absurd h (by simp)
  · rw [if_neg hd] at h
    by_cases hp : strHasSub "Proton" line = true
    · rw [if_pos hp] at h; exact absurd h (by simp)
    · rw [if_neg hp] at h
      rcases hi : includeFilter m ip (procMapsFields line) with e | oi <;>
        rw [hi] at h <;> (try dsimp only at h)
      · exact absurd h (by simp)
      · rcases oi with _ | u
        · exact absurd h (by simp)
        · rcases hb : blacklistFilter m bl (procMapsFields line) with e | ob <;>
            rw [hb] at h <;> (try dsimp only at h)
          · exact absurd h (by simp)
          · rcases ob with _ | v
            · exact absurd h (by simp)
            · exact ⟨h, u, rfl⟩

lemma processLineVm_emit {wo : Bool} {line : String} {r : Nat × Nat}
    (h : processLineVm wo line = .ok (some r)) :
    permAndParse wo (pySplit line) = .ok (some r) := by
  unfold processLineVm at h
  by_cases hd : strHasSub "/dev/dri/" line = true
  · rw [if_pos hd] at h; exact absurd h (by simp)
  · rw [if_neg hd] at h
    by_cases hp : strHasSub "Proton" line = true
    · rw [if_pos hp] at h; exact absurd h (by simp)
    · rw [if_neg hp] at h
      exact h

lemma mem_listMappedRegionsLinux {m : Matchers} {ip bl : List String} {wo : Bool} :
    ∀ {lines : List String} {regions : List (Nat × Nat)} {r : Nat × Nat},
      listMappedRegionsLinux m ip bl wo lines = .ok regions → r ∈ regions →
      ∃ line, line ∈ lines ∧ processLineLinux m ip bl wo line = .ok (some r) := by
  intro lines
  induction lines with
  | nil =>
    intro regions r h hr
    unfold listMappedRegionsLinux at h
    cases h
    cases hr
  | cons l ls ih =>
    intro regions r h hr
    unfold listMappedRegionsLinux at h
    rcases hp : processLineLinux m ip bl wo l with e | o <;> rw [hp] at h <;>
      (try dsimp only at h)
    · exact absurd h (by simp)
    · rcases o with _ | r0
      · obtain ⟨line, hl, he⟩ := ih h hr
        exact ⟨line, List.mem_cons_of_mem l hl, he⟩
      · rcases hrest : listMappedRegionsLinux m ip bl wo ls with e | rs <;>
          rw [hrest] at h <;> (try dsimp only at h)
        · exact absurd h (by simp)
        · cases h
          rcases List.mem_cons.mp hr with h1 | h1
          · subst h1
            exact ⟨l, List.mem_cons_self l ls, hp⟩
          · obtain ⟨line, hl, he⟩ := ih hrest h1
            exact ⟨line, List.mem_cons_of_mem l hl, he⟩

lemma mem_listMappedRegionsVm {wo : Bool} {ip : List String} :
    ∀ {lines : List String} {regions : List (Nat × Nat)} {r : Nat × Nat},
      listMappedRegionsVm wo ip lines = .ok regions → r ∈ regions →
      ∃ line, line ∈ lines ∧ processLineVm wo line = .ok (some r) := by
  intro lines
  induction lines with
  | nil =>
    intro regions r h hr
    unfold listMappedRegionsVm at h
    cases h
    cases hr
  | cons l ls ih =>
    intro regions r h hr
    unfold listMappedRegionsVm at h
    rcases hp : processLineVm wo l with e | o <;> rw [hp] at h <;>
      (try dsimp only at h)
    · exact absurd h (by simp)
    · rcases o with _ | r0
      · obtain ⟨line, hl, he⟩ := ih h hr
        exact ⟨line, List.mem_cons_of_mem l hl, he⟩
      · rcases hrest : listMappedRegionsVm wo ip ls with e | rs <;>
          rw [hrest] at h <;> (try dsimp only at h)
        · exact absurd h (by simp)
        · cases h
          rcases List.mem_cons.mp hr with h1 | h1
          · subst h1
            exact ⟨l, List.mem_cons_self l ls, hp⟩
          · obtain ⟨line, hl, he⟩ := ih hrest h1
            exact ⟨line, List.mem_cons_of_mem l hl, he⟩

lemma listMappedRegionsVm_ignores_include_paths (wo : Bool)
    (ip ip2 : List String) :
    ∀ lines, listMappedRegionsVm wo ip lines = listMappedRegionsVm wo ip2 lines := by
  intro lines
  induction lines with
  | nil => rfl
  | cons l ls ih =>
    unfold listMappedRegionsVm
    rw [ih]

/- ------------------------------------------------------------------
   Helper lemmas about the memory model.
   ------------------------------------------------------------------ -/

lemma writeMem_get (mem : TargetMem) (base : Nat) (buf : List Nat)
    (i : Nat) (hi : i < buf.length) :
    writeMem mem base buf (base + i) = some (buf.get ⟨i, hi⟩) := by
  unfold writeMem
  rw [if_pos (Nat.le_add_right base i)]
  rw [Nat.add_sub_cancel_left]
  rw [List.get?_eq_get hi]

lemma availFrom_of_mapped :
    ∀ (n : Nat) (base : Nat) (mem2 : TargetMem),
      (∀ i, i < n → (mem2 (base + i)).isSome = true) →
      availFrom mem2 base n = n := by
  intro n
  induction n with
  | zero => intro base mem2 _; rfl
  | succ k ih =>
    intro base mem2 h
    have h0 : (mem2 base).isSome = true := by
      have := h 0 (Nat.succ_pos k)
      rwa [Nat.add_zero] at this
    unfold availFrom
    cases hm : mem2 base with
    | none => rw [hm] at h0; cases h0
    | some b =>
      have hrec : availFrom mem2 (base + 1) k = k := by
        apply ih
        intro i hik
        have hx := h (i + 1) (Nat.succ_lt_succ hik)
        have h2 : base + (i + 1) = base + 1 + i := by omega
        rwa [h2] at hx
      rw [hrec]
      exact Nat.one_add k

lemma copyIn_roundtrip :
    ∀ (buf scratch : List Nat) (base : Nat) (mem2 : TargetMem),
      scratch.length = buf.length →
      (∀ i (hi : i < buf.length), mem2 (base + i) = some (buf.get ⟨i, hi⟩)) →
      copyIn mem2 base scratch buf.length = buf := by
  intro buf
  induction buf with
  | nil =>
    intro scratch base mem2 hlen _
    rcases scratch with _ | ⟨s, srest⟩
    · rfl
    · cases hlen
  | cons b rest ih =>
    intro scratch base mem2 hlen h
    rcases scratch with _ | ⟨s, srest⟩
    · cases hlen
    · have h0 : mem2 base = some b := by
        have := h 0 (Nat.succ_pos rest.length)
        rwa [Nat.add_zero] at this
      have hstep : copyIn mem2 base (s :: srest) (b :: rest).length =
          (mem2 base).getD 0 :: copyIn mem2 (base + 1) srest rest.length := rfl
      rw [hstep, h0]
      have hrec :
          copyIn mem2 (base + 1) srest rest.length = rest := by
        apply ih srest (base + 1) mem2 (Nat.succ_injective hlen)
        intro i hi
        have hx := h (i + 1) (Nat.succ_lt_succ hi)
        have h2 : base + (i + 1) = base + 1 + i := by omega
        rwa [h2] at hx
      rw [hrec]
      rfl

lemma writeMem_mapped (mem : TargetMem) (base : Nat) (buf : List Nat) :
    ∀ i, i < buf.length → ((writeMem mem base buf) (base + i)).isSome = true := by
  intro i hi
  rw [writeMem_get mem base buf i hi]
  rfl

lemma availFrom_writeMem (mem : TargetMem) (base : Nat) (buf : List Nat) :
    availFrom (writeMem mem base buf) base buf.length = buf.length :=
  availFrom_of_mapped buf.length base _ (writeMem_mapped mem base buf)

/-- Reading back buf.length zeros through the kernel read primitive
    after a full write returns exactly buf. -/
lemma procMemReadinto_writeMem (mem : TargetMem) (base : Nat) (buf : List Nat) :
    procMemReadinto (writeMem mem base buf) base (List.replicate buf.length 0) =
      .ok (buf, buf.length) := by
  unfold procMemReadinto
  have hlen : (List.replicate buf.length 0).length = buf.length :=
    List.length_replicate buf.length 0
  rw [hlen, availFrom_writeMem]
  have hcopy : copyIn (writeMem mem base buf) base
      (List.replicate buf.length 0) buf.length = buf :=
    copyIn_roundtrip buf _ base _ hlen
      (fun i hi => writeMem_get mem base buf i hi)
  rw [if_pos rfl, hcopy]

/- ------------------------------------------------------------------
   Claim theorems.
   ------------------------------------------------------------------ -/

/-- C1: the claim says close() on a PtraceAndProcMem handle whose target
    already exited completes without raising and clears the pid.  The
    code does not: only waitpid's ChildProcessError is caught, so the
    very first step, os.kill(pid, SIGSTOP), raises ProcessLookupError
    for an exited pid (and self.pid = None, the last line, never runs).
    This theorem evaluates close at that failing input. -/
theorem C1_close_raises_on_exited_target :
    ptrace_close sysExited (some 1234) = .error .processLookupError := rfl

/-- C4 counterexample: after a successful close (modelled with the
    all-steps-succeed OS oracle), the PtraceAndProcMem handle's pid is
    None, and a second close raises TypeError because os.kill(None,
    SIGSTOP) is called — the claim "calling close() a second time does
    not raise" is false for this strategy. -/
theorem C4_second_close_cex :
    ptrace_close sysLive (some 5) = .ok none ∧
    ptrace_close sysLive none = .error .typeError := ⟨rfl, rfl⟩

/-- C4 amended: a second close never raises on the VectorizedIO
    strategy (close only forgets the pid), while on the
    PtraceAndProcMem strategy a second close always raises TypeError,
    whatever the OS does, because the pid field is already None. -/
theorem C4_second_close_amended :
    (∀ pid? : Option Nat, vm_close (vm_close pid?) = none) ∧
    (∀ sys : TraceSys, ptrace_close sys none = .error .typeError) :=
  ⟨fun _ => rfl, fun _ => rfl⟩

/-- C6: on Linux the vectorized-copy strategy is imported iff the
    effective uid is 0 and the kernel is at least 3.2, otherwise the
    ptrace-and-proc-mem strategy; any other platform name raises
    MemEditError.  (The decision runs once, at module import; it is the
    pure function selectBackend of the probed values.) -/
theorem C6_backend_selection :
    (∀ euid kmajor kminor : Nat,
      (selectBackend "Linux" euid kmajor kminor = .ok .linuxVm ↔
        (euid = 0 ∧ (kmajor > 3 ∨ (kmajor = 3 ∧ kminor ≥ 2)))) ∧
      (selectBackend "Linux" euid kmajor kminor = .ok .linuxPtrace ↔
        ¬ (euid = 0 ∧ (kmajor > 3 ∨ (kmajor = 3 ∧ kminor ≥ 2))))) ∧
    (∀ (system : String) (euid kmajor kminor : Nat),
      exceptIsError (selectBackend system euid kmajor kminor) = true ↔
        (system ≠ "Windows" ∧ system ≠ "Linux")) := by
  constructor
  · intro euid kmajor kminor
    have h1 : selectBackend "Linux" euid kmajor kminor =
        (if euid = 0 ∧ (kmajor > 3 ∨ (kmajor = 3 ∧ kminor ≥ 2))
         then Except.ok Backend.linuxVm else Except.ok Backend.linuxPtrace) := by
      unfold selectBackend
      rw [if_neg (by decide), if_pos rfl]
    rw [h1]
    by_cases hc : euid = 0 ∧ (kmajor > 3 ∨ (kmajor = 3 ∧ kminor ≥ 2))
    · rw [if_pos hc]
      constructor
      · constructor
        · intro _; exact hc
        · intro _; rfl
      · constructor
        · intro hh; exact absurd hh (by simp)
        · intro hn; exact absurd hc hn
    · rw [if_neg hc]
      constructor
      · constructor
        · intro hh; exact absurd hh (by simp)
        · intro hh; exact absurd hh hc
      · constructor
        · intro _; exact hc
        · intro _; rfl
  · intro s euid kmajor kminor
    unfold selectBackend
    by_cases hw : s = "Windows"
    · rw [if_pos hw]
      constructor
      · intro hh; exact absurd hh (by simp [exceptIsError])
      · intro hh; exact absurd hw hh.1
    · rw [if_neg hw]
      by_cases hl : s = "Linux"
      · rw [if_pos hl]
        by_cases hc : euid = 0 ∧ (kmajor > 3 ∨ (kmajor = 3 ∧ kminor ≥ 2))
        · rw [if_pos hc]
          constructor
          · intro hh; exact absurd hh (by simp [exceptIsError])
          · intro hh; exact absurd hl hh.2
        · rw [if_neg hc]
          constructor
          · intro hh; exact absurd hh (by simp [exceptIsError])
          · intro hh; exact absurd hl hh.2
      · rw [if_neg hl]
        constructor
        · intro _; exact ⟨hw, hl⟩
        · intro _; rfl

/-- C9: get_path always returns the empty string, because the path
    template '/proc/\x7b\x7d/cmdline' is opened without substituting the
    pid: on any filesystem that exposes cmdline files only at
    /proc/(decimal pid)/cmdline, the open raises FileNotFoundError,
    which the handler converts to ''.  (Both Linux strategies have the
    identical body; the handle's pid is never read.) -/
theorem C9_get_path_empty (fs : String → Option String)
    (hfs : ∀ p, (fs p).isSome = true → isPidCmdlinePath p = true) :
    get_path fs = "" := by
  unfold get_path
  cases hcase : fs cmdlineTemplatePath with
  | none => rfl
  | some c =>
    have h1 : isPidCmdlinePath cmdlineTemplatePath = true :=
      hfs _ (by rw [hcase]; rfl)
    have h2 : isPidCmdlinePath cmdlineTemplatePath = false := by decide
    rw [h1] at h2
    cases h2

/-- C9 witness: the empty filesystem satisfies the procfs-shape
    hypothesis, and get_path on it returns ''. -/
theorem C9_get_path_empty_witness :
    (∀ p, ((fun _ => none : String → Option String) p).isSome = true →
      isPidCmdlinePath p = true) ∧
    get_path (fun _ => none) = "" :=
  ⟨(fun _ h => nomatch h),
   C9_get_path_empty (fun _ => none) (fun _ h => nomatch h)⟩

/-- C10: the exclusion blacklist of the PtraceAndProcMem strategy is a
    single class-level list: set_blacklist, called through any handle
    or through the class, replaces it for every existing and future
    handle, and every subsequent list_mapped_regions call on any handle
    filters with exactly the new list.  (The VectorizedIO Process class
    defines no blacklist attribute and no set_blacklist method at all,
    which is why no vm counterpart of these state functions exists.) -/
theorem C10_blacklist_shared :
    ∀ (cls : PtraceClassState) (bl : List String) (h1 h2 : PtraceHandle)
      (m : Matchers) (wo : Bool) (ip lines : List String),
      handleBlacklist (set_blacklist bl cls) h1 = bl ∧
      listMappedRegionsMethod (set_blacklist bl cls) m h1 wo ip lines =
        listMappedRegionsMethod (set_blacklist bl cls) m h2 wo ip lines ∧
      listMappedRegionsMethod (set_blacklist bl cls) m h1 wo ip lines =
        listMappedRegionsLinux m ip bl wo lines :=
  fun _ _ _ _ _ _ _ _ => ⟨rfl, rfl, rfl⟩

/-- C2 counterexample: with only 2 of the 4 requested bytes mapped,
    process_vm_readv transfers 2 bytes and returns count 2, which
    read_process_memory binds as res_size and never checks, so the
    VectorizedIO strategy reports success with a half-filled buffer —
    refuting "any short transfer ... is surfaced as a failure, never
    silently reported as success".  (The PtraceAndProcMem strategy does
    surface the same short transfer: the buffered /proc/pid/mem read
    raises OSError(EIO), third conjunct.) -/
theorem C2_short_transfer_cex :
    availFrom mem1 0 4 = 2 ∧
    read_process_memory mem1 0 [0, 0, 0, 0] = .ok [7, 7, 0, 0] ∧
    read_memory_ptrace mem1 0 [0, 0, 0, 0] = .error (.osError EIO) :=
  ⟨rfl, rfl, rfl⟩

/-- C5 counterexample: a pid whose cmdline read raises PermissionError
    makes get_pid_by_name raise — the except clause catches only
    FileNotFoundError — refuting "permission denied is skipped without
    raising". -/
theorem C5_permission_denied_cex :
    get_pid_by_name [1] cmdlinePerm "x" = .error .permissionError := rfl

/-- C2 amended: on the PtraceAndProcMem strategy the claim holds —
    the buffered /proc/pid/mem read and write raise OSError(EIO)
    whenever the requested range is not fully transferable, so a
    successful call moved exactly the requested bytes.  On the
    VectorizedIO strategy only the -1 return of process_vm_readv /
    process_vm_writev is surfaced (as OSError(errno), via errcheck);
    a short positive transfer is NOT: res_size is bound but never
    compared with the requested size, so partial transfers are
    silently reported as success. -/
theorem C2_error_surfacing_amended :
    ∀ (mem : TargetMem) (base : Nat) (buf : List Nat),
      (read_memory_ptrace mem base buf = .error (.osError EIO) ↔
        availFrom mem base buf.length ≠ buf.length) ∧
      (availFrom mem base buf.length = buf.length →
        read_memory_ptrace mem base buf =
          .ok (copyIn mem base buf (availFrom mem base buf.length))) ∧
      (write_memory_ptrace mem base buf = .error (.osError EIO) ↔
        availFrom mem base buf.length ≠ buf.length) ∧
      (read_process_memory mem base buf = .error (.osError EFAULT) ↔
        (availFrom mem base buf.length = 0 ∧ buf.length ≠ 0)) ∧
      (¬ (availFrom mem base buf.length = 0 ∧ buf.length ≠ 0) →
        read_process_memory mem base buf =
          .ok (copyIn mem base buf (availFrom mem base buf.length))) ∧
      (write_memory_vm mem base buf = .error (.osError EFAULT) ↔
        (availFrom mem base buf.length = 0 ∧ buf.length ≠ 0)) ∧
      (¬ (availFrom mem base buf.length = 0 ∧ buf.length ≠ 0) →
        write_memory_vm mem base buf =
          .ok (writeMem mem base (buf.take (availFrom mem base buf.length)))) := by
  intro mem base buf
  refine ⟨?_, ?_, ?_, ?_, ?_, ?_, ?_⟩
  · unfold read_memory_ptrace procMemReadinto
    by_cases hc : availFrom mem base buf.length = buf.length
    · rw [if_pos hc]
      exact ⟨fun he => Except.noConfusion he, fun hne => absurd hc hne⟩
    · rw [if_neg hc]
      exact ⟨fun _ => hc, fun _ => rfl⟩
  · intro hc
    unfold read_memory_ptrace procMemReadinto
    rw [if_pos hc]
  · unfold write_memory_ptrace procMemWrite
    by_cases hc : availFrom mem base buf.length = buf.length
    · rw [if_pos hc]
      exact ⟨fun he => Except.noConfusion he, fun hne => absurd hc hne⟩
    · rw [if_neg hc]
      exact ⟨fun _ => hc, fun _ => rfl⟩
  · unfold read_process_memory process_vm_readv_call
    by_cases hc : availFrom mem base buf.length = 0 ∧ buf.length ≠ 0
    · rw [if_pos hc]
      exact ⟨fun _ => hc, fun _ => rfl⟩
    · rw [if_neg hc]
      exact ⟨fun he => Except.noConfusion he, fun hcc => absurd hcc hc⟩
  · intro hc
    unfold read_process_memory process_vm_readv_call
    rw [if_neg hc]
  · unfold write_memory_vm process_vm_writev_call
    by_cases hc : availFrom mem base buf.length = 0 ∧ buf.length ≠ 0
    · rw [if_pos hc]
      exact ⟨fun _ => hc, fun _ => rfl⟩
    · rw [if_neg hc]
      exact ⟨fun he => Except.noConfusion he, fun hcc => absurd hcc hc⟩
  · intro hc
    unfold write_memory_vm process_vm_writev_call
    rw [if_neg hc]

/-- C2 witness for the amended claim, at the short-transfer memory
    mem1: the vm guard hypothesis holds (2 of 4 bytes available, so
    the syscall does not return -1) and the vm read reports success
    with the partially filled buffer. -/
theorem C2_error_surfacing_amended_witness :
    ¬ (availFrom mem1 0 ([0, 0, 0, 0] : List Nat).length = 0 ∧
        ([0, 0, 0, 0] : List Nat).length ≠ 0) ∧
    read_process_memory mem1 0 [0, 0, 0, 0] =
      .ok (copyIn mem1 0 [0, 0, 0, 0] (availFrom mem1 0 ([0, 0, 0, 0] : List Nat).length)) :=
  ⟨by decide,
   (C2_error_surfacing_amended mem1 0 [0, 0, 0, 0]).2.2.2.2.1 (by decide)⟩

/-- C3 counterexample: the VectorizedIO strategy ignores include_paths.
    With the pattern list ["zzz"] — metacharacter-free, so re.match is
    literal-prefix matching, oracle mLit — the PtraceAndProcMem
    strategy drops the /bin/true line, while the VectorizedIO strategy
    keeps it and returns its region, refuting "on every backend
    strategy ... every non-matching line is dropped". -/
theorem C3_vm_ignores_include_paths_cex :
    listMappedRegionsVm true ["zzz"] [sampleLine] = .ok [(4194304, 4198400)] ∧
    listMappedRegionsLinux mLit ["zzz"] [] true [sampleLine] = .ok [] :=
  ⟨by decide, by decide⟩

/-- C3 amended: only the PtraceAndProcMem strategy filters by
    include_paths — every region it returns under a non-empty pattern
    list comes from a line whose path field matches some pattern either
    raw or escaped — while the VectorizedIO strategy ignores the
    argument entirely (its result is the same for any two pattern
    lists). -/
theorem C3_include_filter :
    (∀ (m : Matchers) (ip bl : List String) (wo : Bool) (lines : List String)
       (regions : List (Nat × Nat)) (r : Nat × Nat),
      listMappedRegionsLinux m ip bl wo lines = .ok regions → r ∈ regions →
      ip ≠ [] →
      ∃ line, line ∈ lines ∧ processLineLinux m ip bl wo line = .ok (some r) ∧
        ∃ path, (procMapsFields line).get? 5 = some path ∧
          ((ip.any fun x => m.reMatch x path) ||
           (ip.any fun x => m.reMatch (m.reEscape x) path)) = true) ∧
    (∀ (wo : Bool) (ip ip2 lines : List String),
      listMappedRegionsVm wo ip lines = listMappedRegionsVm wo ip2 lines) := by
  constructor
  · intro m ip bl wo lines regions r h hr hip
    obtain ⟨line, hl, he⟩ := mem_listMappedRegionsLinux h hr
    obtain ⟨_, u, hinc⟩ := processLineLinux_emit he
    obtain ⟨path, h5, hm⟩ := includeFilter_pass hinc hip
    exact ⟨line, hl, he, path, h5, hm⟩
  · intro wo ip ip2 lines
    exact listMappedRegionsVm_ignores_include_paths wo ip ip2 lines

/-- C3 witness for the amended claim: a pattern list whose literal
    "/bin" matches the /bin/true path keeps the sample line on the
    PtraceAndProcMem strategy, and the theorem recovers the matching
    path. -/
theorem C3_include_filter_witness :
    listMappedRegionsLinux mLit ["/bin"] [] true [sampleLine] =
      .ok [(4194304, 4198400)] ∧
    (4194304, 4198400) ∈ ([(4194304, 4198400)] : List (Nat × Nat)) ∧
    (["/bin"] : List String) ≠ [] ∧
    (∃ line, line ∈ [sampleLine] ∧
      processLineLinux mLit ["/bin"] [] true line = .ok (some (4194304, 4198400)) ∧
      ∃ path, (procMapsFields line).get? 5 = some path ∧
        (((["/bin"] : List String).any fun x => mLit.reMatch x path) ||
         ((["/bin"] : List String).any fun x => mLit.reMatch (mLit.reEscape x) path)) = true) :=
  ⟨by decide, by decide, by decide,
   C3_include_filter.1 mLit ["/bin"] [] true [sampleLine]
     [(4194304, 4198400)] (4194304, 4198400) (by decide) (by decide) (by decide)⟩

/-- C5 amended: get_pid_by_name returns the first pid, in discovery
    order, whose command line's first null-delimited token has basename
    exactly target_name, skipping pids whose cmdline is gone
    (FileNotFoundError) and returning None on no match — but only
    FileNotFoundError is skipped: a permission-denied cmdline read
    propagates (see the counterexample). -/
theorem C5_first_match_amended :
    ∀ (pids : List Nat) (cmdline : Nat → CmdRes) (target_name : String),
      (∀ p ∈ pids, cmdline p ≠ .permDenied) →
      get_pid_by_name pids cmdline target_name =
        .ok (firstMatchSpec pids cmdline target_name) := by
  intro pids cmdline target
  induction pids with
  | nil => intro _; rfl
  | cons p ps ih =>
    intro h
    have hp : cmdline p ≠ .permDenied := h p (List.mem_cons_self p ps)
    have hps : ∀ q ∈ ps, cmdline q ≠ .permDenied :=
      fun q hq => h q (List.mem_cons_of_mem p hq)
    unfold get_pid_by_name firstMatchSpec
    cases hc : cmdline p with
    | permDenied => exact absurd hc hp
    | fnf => exact ih hps
    | content c =>
      dsimp only
      by_cases hn : pyBasename (firstNullTok c) = target
      · rw [if_pos hn, if_pos hn]
      · rw [if_neg hn, if_neg hn]
        exact ih hps

/-- C5 witness for the amended claim: pid 3's cmdline is gone and is
    skipped; pid 5 matches "x" and is returned first. -/
theorem C5_first_match_amended_witness :
    (∀ p ∈ ([3, 5] : List Nat), cmdlineSample p ≠ .permDenied) ∧
    get_pid_by_name [3, 5] cmdlineSample "x" =
      .ok (firstMatchSpec [3, 5] cmdlineSample "x") :=
  ⟨by decide, C5_first_match_amended [3, 5] cmdlineSample "x" (by decide)⟩

/-- C7: on both Linux strategies, every region returned by
    list_mapped_regions comes from a mapping line whose permission
    field contains 'r', and additionally contains 'w' whenever
    writeable_only is true. -/
theorem C7_readable_regions :
    (∀ (m : Matchers) (ip bl : List String) (wo : Bool) (lines : List String)
       (regions : List (Nat × Nat)) (r : Nat × Nat),
      listMappedRegionsLinux m ip bl wo lines = .ok regions → r ∈ regions →
      ∃ line, line ∈ lines ∧ processLineLinux m ip bl wo line = .ok (some r) ∧
        ∃ priv, (procMapsFields line).get? 1 = some priv ∧
          strHasChar priv 'r' = true ∧ (wo = true → strHasChar priv 'w' = true)) ∧
    (∀ (wo : Bool) (ip lines : List String)
       (regions : List (Nat × Nat)) (r : Nat × Nat),
      listMappedRegionsVm wo ip lines = .ok regions → r ∈ regions →
      ∃ line, line ∈ lines ∧ processLineVm wo line = .ok (some r) ∧
        ∃ priv, (pySplit line).get? 1 = some priv ∧
          strHasChar priv 'r' = true ∧ (wo = true → strHasChar priv 'w' = true)) := by
  constructor
  · intro m ip bl wo lines regions r h hr
    obtain ⟨line, hl, he⟩ := mem_listMappedRegionsLinux h hr
    obtain ⟨hperm, _⟩ := processLineLinux_emit he
    obtain ⟨priv, h1, hrd, hwr⟩ := permAndParse_emit hperm
    exact ⟨line, hl, he, priv, h1, hrd, hwr⟩
  · intro wo ip lines regions r h hr
    obtain ⟨line, hl, he⟩ := mem_listMappedRegionsVm h hr
    have hperm := processLineVm_emit he
    obtain ⟨priv, h1, hrd, hwr⟩ := permAndParse_emit hperm
    exact ⟨line, hl, he, priv, h1, hrd, hwr⟩

/-- C7 witness: the readable+writable sample line yields its region on
    the PtraceAndProcMem strategy and the theorem recovers the
    permission field facts. -/
theorem C7_readable_regions_witness :
    listMappedRegionsLinux mLit [] [] true [sampleLine] =
      .ok [(4194304, 4198400)] ∧
    (4194304, 4198400) ∈ ([(4194304, 4198400)] : List (Nat × Nat)) ∧
    (∃ line, line ∈ [sampleLine] ∧
      processLineLinux mLit [] [] true line = .ok (some (4194304, 4198400)) ∧
      ∃ priv, (procMapsFields line).get? 1 = some priv ∧
        strHasChar priv 'r' = true ∧ (true = true → strHasChar priv 'w' = true)) :=
  ⟨by decide, by decide,
   C7_readable_regions.1 mLit [] [] true [sampleLine]
     [(4194304, 4198400)] (4194304, 4198400) (by decide) (by decide)⟩

/-- Reading back buf.length zeros through process_vm_readv after a
    full write returns exactly buf. -/
lemma process_vm_readv_call_writeMem (mem : TargetMem) (base : Nat) (buf : List Nat) :
    process_vm_readv_call (writeMem mem base buf) base (List.replicate buf.length 0) =
      .ok (buf.length, buf) := by
  unfold process_vm_readv_call
  have hlen : (List.replicate buf.length 0).length = buf.length :=
    List.length_replicate buf.length 0
  rw [hlen, availFrom_writeMem]
  have hcopy : copyIn (writeMem mem base buf) base
      (List.replicate buf.length 0) buf.length = buf :=
    copyIn_roundtrip buf _ base _ hlen
      (fun i hi => writeMem_get mem base buf i hi)
  rcases Nat.eq_zero_or_pos buf.length with h0 | h0
  · rw [if_neg (by simp [h0])]
    rw [hcopy]
  · rw [if_neg (by intro hc; exact absurd hc.1 (Nat.pos_iff_ne_zero.mp h0))]
    rw [hcopy]

/-- C8: on both Linux strategies, a successful write of buf at an
    address range that lies inside a readable-and-writable mapped
    region (modelled: every byte of [base, base + len) is mapped, so
    the copy primitives transfer in full), immediately followed by a
    read of len(buf) bytes at the same address, yields exactly buf. -/
theorem C8_write_read_roundtrip :
    ∀ (mem : TargetMem) (base : Nat) (buf : List Nat),
      availFrom mem base buf.length = buf.length →
      (∃ mem2, write_memory_ptrace mem base buf = .ok mem2 ∧
        read_memory_ptrace mem2 base (List.replicate buf.length 0) = .ok buf) ∧
      (∃ mem2, write_memory_vm mem base buf = .ok mem2 ∧
        read_process_memory mem2 base (List.replicate buf.length 0) = .ok buf) := by
  intro mem base buf hav
  have hguard : ¬ (availFrom mem base buf.length = 0 ∧ buf.length ≠ 0) := by
    rw [hav]
    rintro ⟨h1, h2⟩
    exact h2 h1
  constructor
  · refine ⟨writeMem mem base buf, ?_, ?_⟩
    · unfold write_memory_ptrace procMemWrite
      rw [if_pos hav]
    · unfold read_memory_ptrace
      rw [procMemReadinto_writeMem]
  · refine ⟨writeMem mem base buf, ?_, ?_⟩
    · unfold write_memory_vm process_vm_writev_call
      rw [if_neg hguard, hav, List.take_length]
    · unfold read_process_memory
      rw [process_vm_readv_call_writeMem]

/-- C8 witness: writing [1, 2, 3] at address 2 of a memory mapped on
    0..7 and reading three bytes back returns [1, 2, 3] on both
    strategies. -/
theorem C8_write_read_roundtrip_witness :
    availFrom mem0 2 ([1, 2, 3] : List Nat).length = ([1, 2, 3] : List Nat).length ∧
    ((∃ mem2, write_memory_ptrace mem0 2 [1, 2, 3] = .ok mem2 ∧
        read_memory_ptrace mem2 2 (List.replicate ([1, 2, 3] : List Nat).length 0) =
          .ok [1, 2, 3]) ∧
     (∃ mem2, write_memory_vm mem0 2 [1, 2, 3] = .ok mem2 ∧
        read_process_memory mem2 2 (List.replicate ([1, 2, 3] : List Nat).length 0) =
          .ok [1, 2, 3])) :=
  ⟨by decide, C8_write_read_roundtrip mem0 2 [1, 2, 3] (by decide)⟩

end MemEdit
